import Mathlib

/-!
Verification of the figma-reviewer plugin core.

This file gives a shallow embedding of the plugin's review pipeline:
the response sanitizer `cleanReviewText`, the base64 encoder
`arrayBufferToBase64`, the retrying Gemini client `requestGeminiAPI`,
the selection validator `validateSelection`, the credential phase and
the whole `get-review` message handler, together with theorems about
them.  Strings are modelled as `List Char` where character-level
reasoning is needed; machine integers are `Nat` (all quantities stay
far below any overflow boundary in the source).  Host and network
effects are modelled by oracles in an environment record, and the
externally visible actions of a run are collected in an event trace.
-/

namespace FigmaReviewer

/-! Response sanitizer (src/unnamed/part_000, lines 27-32)

`cleanReviewText` is `text.replace(/[`*_~>]/g, "").replace(/\n{3,}/g, "\n\n").trim()`.
-/

/-- The characters removed by the first regex `[`*_~>]`. -/
def isDecorChar (c : Char) : Bool :=
  c == '`' || c == '*' || c == '_' || c == '~' || c == '>'

/-- JavaScript whitespace: what the trim method of strings removes, the WhiteSpace and
LineTerminator code points: TAB, LF, VT, FF, CR, SP, NBSP, Ogham space
mark, the U+2000..U+200A range, LS, PS, NNBSP, MMSP, ideographic space
and ZWNBSP. -/
def isJsWhitespace (c : Char) : Bool :=
  c.toNat == 0x9 || c.toNat == 0xa || c.toNat == 0xb || c.toNat == 0xc ||
  c.toNat == 0xd || c.toNat == 0x20 || c.toNat == 0xa0 || c.toNat == 0x1680 ||
  (0x2000 <= c.toNat && c.toNat <= 0x200a) ||
  c.toNat == 0x2028 || c.toNat == 0x2029 || c.toNat == 0x202f ||
  c.toNat == 0x205f || c.toNat == 0x3000 || c.toNat == 0xfeff

/-- Emit a pending run of `k` newlines the way `/\n{3,}/g → "\n\n"` does:
a run of three or more newlines becomes exactly two. -/
def flushNewlines (k : Nat) : List Char :=
  List.replicate (if 3 ≤ k then 2 else k) '\n'

/-- Scan the text, collapsing every maximal run of three or more
newlines to exactly two (the second `replace` of the source). -/
def collapseNewlinesAux : Nat → List Char → List Char
  | k, [] => flushNewlines k
  | k, c :: cs =>
    if c == '\n' then collapseNewlinesAux (k + 1) cs
    else flushNewlines k ++ c :: collapseNewlinesAux 0 cs

def collapseNewlines (s : List Char) : List Char :=
  collapseNewlinesAux 0 s

/-- Trim of JavaScript: drop whitespace from both ends. -/
def trimLeft (s : List Char) : List Char := s.dropWhile isJsWhitespace

def trimRight (s : List Char) : List Char :=
  (s.reverse.dropWhile isJsWhitespace).reverse

def jsTrim (s : List Char) : List Char := trimRight (trimLeft s)

/-- Definition of cleanReviewText (src/unnamed/part_000): strip decoration
characters, collapse newline runs, trim. -/
def cleanReviewText (s : List Char) : List Char :=
  jsTrim (collapseNewlines (s.filter (fun c => !isDecorChar c)))

/-- Helper for `hasTriple`: does the list start with two newlines? -/
def startsNlNl : List Char → Bool
  | c2 :: c3 :: _ => c2 == '\n' && c3 == '\n'
  | _ => false

/-- True iff the text contains three consecutive newline characters
(i.e. a run of more than two). -/
def hasTriple : List Char → Bool
  | [] => false
  | c :: rest => (c == '\n' && startsNlNl rest) || hasTriple rest

/-! Base64 encoder (src/unnamed/part_002, lines 27-46)

`arrayBufferToBase64` walks the byte array three bytes at a time,
packing them into a 24-bit chunk (missing bytes read as 0) and emitting
four alphabet characters, with `'='` in place of the third and fourth
character when fewer than two, resp. three, bytes remain.
-/

def base64Chars : List Char :=
  "ABCDEFGHIJKLMNOPQRSTUVWXYZabcdefghijklmnopqrstuvwxyz0123456789+/".toList

/-- Indexing base64Chars as the source does (indices used are always < 64). -/
def b64char (n : Nat) : Char := base64Chars.getD n ' '

/-- One step of the loop body for the bytes still to process; the
`i + 1 < len` / `i + 2 < len` tests of the source become the pattern
match on how many bytes remain. -/
def arrayBufferToBase64 : List Nat → List Char
  | [] => []
  | [a] =>
    let chunk := a * 65536
    [b64char (chunk / 262144 % 64), b64char (chunk / 4096 % 64), '=', '=']
  | [a, b] =>
    let chunk := a * 65536 + b * 256
    [b64char (chunk / 262144 % 64), b64char (chunk / 4096 % 64),
     b64char (chunk / 64 % 64), '=']
  | a :: b :: c :: rest =>
    let chunk := a * 65536 + b * 256 + c
    b64char (chunk / 262144 % 64) :: b64char (chunk / 4096 % 64) ::
      b64char (chunk / 64 % 64) :: b64char (chunk % 64) ::
      arrayBufferToBase64 rest

/-- Value of a standard base64 alphabet character (inverse of `b64char`
on the alphabet). -/
def b64val (c : Char) : Nat :=
  base64Chars.indexOf c

/-- Standard base64 decoding of a padded base64 string: four characters
at a time, `'='` in third or fourth position marks a final one- or
two-byte group. -/
def decodeB64 : List Char → List Nat
  | c1 :: c2 :: c3 :: c4 :: rest =>
    if c3 == '=' then
      [b64val c1 * 4 + b64val c2 / 16]
    else if c4 == '=' then
      [b64val c1 * 4 + b64val c2 / 16, b64val c2 % 16 * 16 + b64val c3 / 4]
    else
      (b64val c1 * 4 + b64val c2 / 16) ::
        (b64val c2 % 16 * 16 + b64val c3 / 4) ::
        (b64val c3 % 4 * 64 + b64val c4) ::
        decodeB64 rest
  | _ => []

/-! Pipeline controller embedding (src/code.ts).

The get-review handler of src/code.ts lines 229-358 is modelled as a
function from the persisted storage, an environment of host/network
oracles and the incoming message to a result carrying the final
storage and the trace of externally visible actions.  A promise
rejection that no try/catch of the source covers is a `fault` result.
-/

/-- Kind of a Figma scene node, as tested by `validateSelection`. -/
inductive NodeKind where
  | frameKind
  | componentKind
  | instanceKind
  | otherKind
deriving DecidableEq

structure SceneNode where
  kind : NodeKind
  id : String
deriving DecidableEq

/-- Parsed Gemini response part; an absent `text` field is `none`. -/
structure GeminiPart where
  text : Option String
deriving DecidableEq

structure GeminiContent where
  parts : List GeminiPart
deriving DecidableEq

structure GeminiCandidate where
  content : GeminiContent
deriving DecidableEq

structure GeminiResponse where
  candidates : List GeminiCandidate
deriving DecidableEq

/-- What the network returns for one Gemini fetch: a status line with a
parsed body, or a transport-level failure whose `Error` carries the
given message. -/
inductive GeminiHttp where
  | status (code : Nat) (statusText : String) (body : GeminiResponse)
  | transportError (message : String)

/-- Result of one `requestGeminiAPI` call: the parsed body, or the
`Error` thrown for exhausted retries, a non-ok status, or transport. -/
inductive GeminiOutcome where
  | success (r : GeminiResponse)
  | busyError (retryCount : Nat)
  | rejectedError (code : Nat) (statusText : String)
  | transportError (message : String)
deriving DecidableEq

/-- Externally visible actions of a run, in the order they happen. -/
inductive Event where
  | notify (message : String)
  | postFinished
  | postRetryMessage (message : String)
  | waitMs (ms : Nat)
  | fetchGemini
  | fetchComment
  | storageSetApiKey (value : String)
  | storageSetFigmaToken (value : String)
  | postApiKeyLoaded (value : String)
  | postFigmaTokenLoaded (value : String)
  | closePlugin
deriving DecidableEq

/-- Message shown before each retry (src/code.ts line 158). -/
def retryMessage (waitTime : Nat) : String :=
  "サーバーが混雑しています。" ++ toString (waitTime / 1000) ++ "秒後に再試行します..."

/-- Message of the error thrown when the retry cap is reached
(src/code.ts line 164). -/
def busyMessage (retryCount : Nat) : String :=
  "サーバーがビジー状態です。再試行の上限に達しました (" ++ toString retryCount ++ " 回)。"

/-- Message of the error thrown for a non-ok, non-retried status
(src/code.ts line 168). -/
def rejectedMessage (code : Nat) (statusText : String) : String :=
  "APIリクエストに失敗しました: " ++ toString code ++ " " ++ statusText

/-- Does a response status count as `response.ok` (2xx)? -/
def respOk (code : Nat) : Prop := 200 ≤ code ∧ code < 300

instance (code : Nat) : Decidable (respOk code) := by
  unfold respOk; infer_instance

/-- Gemini client with bounded exponential backoff
(src/code.ts lines 139-178).  `responses k` is what the network
returns for the fetch performed with `retryCount = k`; the event list
records each fetch, each retry notice and each backoff wait. -/
def requestGeminiAPI (responses : Nat → GeminiHttp) (retryCount : Nat) :
    List Event × GeminiOutcome :=
  match responses retryCount with
  | .transportError message => ([.fetchGemini], .transportError message)
  | .status code statusText body =>
    if h : code = 503 ∧ retryCount < 3 then
      let waitTime := 2 ^ retryCount * 1000
      let rest := requestGeminiAPI responses (retryCount + 1)
      (.fetchGemini :: .postRetryMessage (retryMessage waitTime) ::
        .waitMs waitTime :: rest.1, rest.2)
    else if code = 503 then
      ([.fetchGemini], .busyError retryCount)
    else if ¬ respOk code then
      ([.fetchGemini], .rejectedError code statusText)
    else
      ([.fetchGemini], .success body)
termination_by 3 - retryCount
decreasing_by omega

/-- Why `validateSelection` rejects, one constructor per branch of
src/code.ts lines 83-107. -/
inductive RejectReason where
  | noSelection
  | multipleSelection
  | unsupportedKind
deriving DecidableEq

/-- Selection validator (src/code.ts lines 83-107): exactly one node of
one of the three container kinds. -/
def validateSelection (selection : List SceneNode) :
    Except RejectReason SceneNode :=
  match selection with
  | [] => .error .noSelection
  | [node] =>
    if node.kind ≠ .frameKind ∧ node.kind ≠ .componentKind ∧
        node.kind ≠ .instanceKind then
      .error .unsupportedKind
    else
      .ok node
  | _ :: _ :: _ => .error .multipleSelection

/-- Notice shown for each rejection branch.  The empty-selection and
unsupported-kind branches share one message in the source. -/
def rejectionNotice : RejectReason → String
  | .noSelection => "フレーム、コンポーネント、またはインスタンスを選択してください。"
  | .multipleSelection => "1つだけ選択してください。"
  | .unsupportedKind => "フレーム、コンポーネント、またはインスタンスを選択してください。"

/-- The two values of figma.clientStorage the plugin uses. -/
structure Storage where
  apiKey : Option String
  figmaToken : Option String
deriving DecidableEq

/-- Payload of a get-review message (optional fields of PluginMessage). -/
structure Msg where
  apiKey : Option String
  figmaToken : Option String
  additionalPrompt : Option String
deriving DecidableEq

/-- Host and network oracles for one run.  The four `Fails` flags say
whether the corresponding clientStorage promise rejects. -/
structure Env where
  loadApiKeyFails : Bool
  loadFigmaTokenFails : Bool
  saveApiKeyFails : Bool
  saveFigmaTokenFails : Bool
  selection : List SceneNode
  exportResult : Except (Option String) (List Nat)
  geminiResponses : Nat → GeminiHttp
  fileKey : Option String
  commentHttp : Option Nat

/-- JavaScript truthiness of a possibly-absent string: `undefined` and
the empty string are falsy. -/
def truthy : Option String → Bool
  | none => false
  | some s => !(s == "")

/-- Missing-credential items in source order (src/code.ts lines 261-263). -/
def missingItems (storedApiKey storedFigmaToken : Option String) : List String :=
  (if truthy storedApiKey then [] else ["APIキー"]) ++
  (if truthy storedFigmaToken then [] else ["Figmaトークン"])

/-- Notice for missing credentials (src/code.ts line 264). -/
def missingNotice (storedApiKey storedFigmaToken : Option String) : String :=
  String.intercalate "と" (missingItems storedApiKey storedFigmaToken) ++
    "が入力されていません。"

/-- Outcome of the credential phase of get-review
(src/code.ts lines 252-277). -/
inductive CredResult where
  | fault (store : Storage) (events : List Event)
  | missing (store : Storage) (events : List Event)
  | proceed (apiKey figmaToken : String) (store : Storage) (events : List Event)
deriving DecidableEq

/-- Credential phase of get-review: with at least one secret missing
from the message, fall back to storage for both (an absent stored
secret fails the run); with both supplied, persist both.  The
clientStorage calls are not inside any try/catch, so a rejecting
promise is a fault. -/
def credPhase (store : Storage) (env : Env) (msg : Msg) : CredResult :=
  if !truthy msg.apiKey || !truthy msg.figmaToken then
    if env.loadApiKeyFails then .fault store []
    else if env.loadFigmaTokenFails then .fault store []
    else if !truthy store.apiKey || !truthy store.figmaToken then
      .missing store
        [.notify (missingNotice store.apiKey store.figmaToken), .postFinished]
    else
      .proceed (store.apiKey.getD "") (store.figmaToken.getD "") store []
  else
    if env.saveApiKeyFails then .fault store []
    else if env.saveFigmaTokenFails then
      .fault { store with apiKey := msg.apiKey }
        [Event.storageSetApiKey (msg.apiKey.getD "")]
    else
      .proceed (msg.apiKey.getD "") (msg.figmaToken.getD "")
        { store with apiKey := msg.apiKey, figmaToken := msg.figmaToken }
        [Event.storageSetApiKey (msg.apiKey.getD ""),
         Event.storageSetFigmaToken (msg.figmaToken.getD "")]

/-- Optional-chaining check of src/code.ts line 323:
`result.candidates?.[0]?.content?.parts?.[0]?.text` must be truthy. -/
def extractText (r : GeminiResponse) : Option String :=
  match r.candidates.head? with
  | none => none
  | some candidate =>
    match candidate.content.parts.head? with
    | none => none
    | some part =>
      match part.text with
      | none => none
      | some t => if t == "" then none else some t

/-- Export step (src/code.ts lines 115-128): the gateway either yields
PNG bytes or fails with an optional Error message; a failure notifies
and posts finished inside the helper. -/
def exportNodeAsPng (result : Except (Option String) (List Nat)) :
    Option (List Nat) × List Event :=
  match result with
  | .ok bytes => (some bytes, [])
  | .error (some m) =>
    (none, [.notify ("画像のエクスポートに失敗しました: " ++ m), .postFinished])
  | .error none =>
    (none, [.notify "画像のエクスポート中に不明なエラーが発生しました", .postFinished])

/-- Comment publisher (src/code.ts lines 188-221): one POST, success on
a 2xx status, no retry; `none` models a transport failure caught by the
helper itself. -/
def postReviewCommentToFigma (http : Option Nat) : Bool × List Event :=
  match http with
  | some code =>
    if respOk code then
      (true, [.fetchComment, .notify "レビューをコメントとして追加しました"])
    else
      (false, [.fetchComment,
        .notify ("コメントの追加に失敗しました: " ++ toString code)])
  | none =>
    (false, [.fetchComment,
      .notify "コメントAPIリクエスト中にエラーが発生しました"])

/-- Result of handling one message: the final storage and the trace,
with `fault` for a promise rejection nothing in the source catches. -/
inductive RunResult where
  | fault (store : Storage) (events : List Event)
  | done (store : Storage) (events : List Event)
deriving DecidableEq

def RunResult.store : RunResult → Storage
  | .fault st _ => st
  | .done st _ => st

def RunResult.events : RunResult → List Event
  | .fault _ evts => evts
  | .done _ evts => evts

def fetchingNotice : String := "レビューを取得中..."

def addingNotice : String := "レビューを追加しています..."

def malformedNotice : String :=
  "レビューの取得に失敗しました。APIからのレスポンス形式が正しくありません。"

def fileKeyNotice : String :=
  "ファイルのキーが取得できませんでした。Figmaファイルが正しく開かれているか確認してください。"

/-- The get-review handler (src/code.ts lines 251-356): credential
resolution, selection validation, export, Gemini call with retries,
response-shape check, file-key check, comment publication; on the
publication succeeding the plugin closes, on every failure the user is
notified and a finished message is posted. -/
def handleGetReview (store : Storage) (env : Env) (msg : Msg) : RunResult :=
  match credPhase store env msg with
  | .fault st evts => .fault st evts
  | .missing st evts => .done st evts
  | .proceed _apiKey _figmaToken st evts =>
    match validateSelection env.selection with
    | .error reason =>
      .done st (evts ++ [.notify (rejectionNotice reason), .postFinished])
    | .ok _node =>
      match exportNodeAsPng env.exportResult with
      | (none, exportEvts) =>
        .done st (evts ++ [.notify fetchingNotice] ++ exportEvts)
      | (some _bytes, exportEvts) =>
        match requestGeminiAPI env.geminiResponses 0 with
        | (gevts, .busyError retryCount) =>
          .done st (evts ++ [.notify fetchingNotice] ++ exportEvts ++ gevts ++
            [.notify (busyMessage retryCount), .postFinished])
        | (gevts, .rejectedError code statusText) =>
          .done st (evts ++ [.notify fetchingNotice] ++ exportEvts ++ gevts ++
            [.notify (rejectedMessage code statusText), .postFinished])
        | (gevts, .transportError message) =>
          .done st (evts ++ [.notify fetchingNotice] ++ exportEvts ++ gevts ++
            [.notify message, .postFinished])
        | (gevts, .success r) =>
          match extractText r with
          | none =>
            .done st (evts ++ [.notify fetchingNotice] ++ exportEvts ++ gevts ++
              [.notify malformedNotice, .postFinished])
          | some _reviewText =>
            if truthy env.fileKey then
              match postReviewCommentToFigma env.commentHttp with
              | (true, pevts) =>
                .done st (evts ++ [.notify fetchingNotice] ++ exportEvts ++
                  gevts ++ [.notify addingNotice] ++ pevts ++ [.closePlugin])
              | (false, pevts) =>
                .done st (evts ++ [.notify fetchingNotice] ++ exportEvts ++
                  gevts ++ [.notify addingNotice] ++ pevts ++ [.postFinished])
            else
              .done st (evts ++ [.notify fetchingNotice] ++ exportEvts ++
                gevts ++ [.notify addingNotice,
                  .notify fileKeyNotice, .postFinished])

/-- The load-api-key handler (src/code.ts lines 231-236). -/
def handleLoadApiKey (store : Storage) (env : Env) : RunResult :=
  if env.loadApiKeyFails then .fault store []
  else
    match store.apiKey with
    | some k => if k == "" then .done store [] else .done store [.postApiKeyLoaded k]
    | none => .done store []

/-- The load-figma-token handler (src/code.ts lines 237-245). -/
def handleLoadFigmaToken (store : Storage) (env : Env) : RunResult :=
  if env.loadFigmaTokenFails then .fault store []
  else
    match store.figmaToken with
    | some t => if t == "" then .done store [] else .done store [.postFigmaTokenLoaded t]
    | none => .done store []


/-- Backoff waits appearing in a trace, in order. -/
def waitsOf (events : List Event) : List Nat :=
  events.filterMap (fun e => match e with | .waitMs n => some n | _ => none)

/-- Number of Gemini fetches in a trace. -/
def countFetchGemini (events : List Event) : Nat :=
  events.countP (fun e => e == .fetchGemini)

/-- Network requests are the Gemini call and the comment POST. -/
def isNetworkEvent : Event → Bool
  | .fetchGemini => true
  | .fetchComment => true
  | _ => false

/-! Event-loop model for the single-flight question.

src/code.ts installs `figma.ui.onmessage` as an async handler with no
state: nothing records whether a run is active, so delivering a message
always starts a fresh handler invocation, and every `await` in the
handler is a suspension point at which other invocations may run.  A
handler invocation is modelled by the list of external effects it still
has to perform (its event trace); the loop either delivers a new
start-review message - unconditionally spawning an invocation, as the
source does - or resumes one suspended invocation for one effect.
-/

structure LoopState where
  nextId : Nat
  pending : List (Nat × List Event)
  trace : List (Nat × Event)
deriving DecidableEq

inductive LoopAction where
  | deliver
  | advance (i : Nat)

/-- One scheduler step.  `instEvents` is the effect list of a handler
invocation for the (fixed) start-review message being delivered. -/
def loopStep (instEvents : List Event) (s : LoopState) :
    LoopAction → LoopState
  | .deliver =>
    { s with nextId := s.nextId + 1,
             pending := s.pending ++ [(s.nextId, instEvents)] }
  | .advance i =>
    match s.pending.get? i with
    | some (id, e :: rest) =>
      { s with pending := s.pending.set i (id, rest),
               trace := s.trace ++ [(id, e)] }
    | _ => s

def runSched (instEvents : List Event) : LoopState → List LoopAction → LoopState
  | s, [] => s
  | s, a :: rest => runSched instEvents (loopStep instEvents s a) rest

def initLoop : LoopState := { nextId := 0, pending := [], trace := [] }


/-! Theorems.  First the retrying service client (claims C1, C7). -/

/-- Unfolding equation of `requestGeminiAPI` for a transport failure. -/
theorem requestGeminiAPI_transport (responses : Nat → GeminiHttp)
    (retryCount : Nat) (message : String)
    (h : responses retryCount = GeminiHttp.transportError message) :
    requestGeminiAPI responses retryCount =
      ([.fetchGemini], .transportError message) := by
  rw [requestGeminiAPI, h]

/-- Unfolding equation of `requestGeminiAPI` for a status response. -/
theorem requestGeminiAPI_status (responses : Nat → GeminiHttp)
    (retryCount code : Nat) (statusText : String) (body : GeminiResponse)
    (h : responses retryCount = GeminiHttp.status code statusText body) :
    requestGeminiAPI responses retryCount =
      if code = 503 ∧ retryCount < 3 then
        (.fetchGemini ::
          .postRetryMessage (retryMessage (2 ^ retryCount * 1000)) ::
          .waitMs (2 ^ retryCount * 1000) ::
          (requestGeminiAPI responses (retryCount + 1)).1,
         (requestGeminiAPI responses (retryCount + 1)).2)
      else if code = 503 then ([.fetchGemini], .busyError retryCount)
      else if ¬ respOk code then
        ([.fetchGemini], .rejectedError code statusText)
      else ([.fetchGemini], .success body) := by
  rw [requestGeminiAPI, h]
  rfl

/-- Every event a `requestGeminiAPI` call emits is a Gemini fetch, a
retry notice or a backoff wait; in particular the client never touches
the comment API, posts finished or closes the plugin. -/
theorem requestGeminiAPI_event_shape (responses : Nat → GeminiHttp)
    (retryCount : Nat) :
    ∀ e ∈ (requestGeminiAPI responses retryCount).1,
      e = Event.fetchGemini ∨ (∃ m, e = Event.postRetryMessage m) ∨
        ∃ n, e = Event.waitMs n := by
  induction retryCount using requestGeminiAPI.induct responses with
  | case1 r m hresp =>
    rw [requestGeminiAPI_transport responses r m hresp]
    intro e he
    simp only [List.mem_singleton] at he
    exact Or.inl he
  | case2 r code st b hresp hcond ih =>
    rw [requestGeminiAPI_status responses r code st b hresp, if_pos hcond]
    intro e he
    simp only [List.mem_cons] at he
    rcases he with rfl | rfl | rfl | he
    · exact Or.inl rfl
    · exact Or.inr (Or.inl ⟨_, rfl⟩)
    · exact Or.inr (Or.inr ⟨_, rfl⟩)
    · exact ih e he
  | case3 r st b hresp hcond =>
    rw [requestGeminiAPI_status responses r 503 st b hresp, if_neg hcond,
      if_pos rfl]
    intro e he
    simp only [List.mem_singleton] at he
    exact Or.inl he
  | case4 r code st b hresp hcond hne hok =>
    rw [requestGeminiAPI_status responses r code st b hresp, if_neg hcond,
      if_neg hne, if_pos hok]
    intro e he
    simp only [List.mem_singleton] at he
    exact Or.inl he
  | case5 r code st b hresp hcond hne hok =>
    rw [requestGeminiAPI_status responses r code st b hresp, if_neg hcond,
      if_neg hne, if_neg hok]
    intro e he
    simp only [List.mem_singleton] at he
    exact Or.inl he

/-- Backoff waits still owed when the attempt counter stands at
`retryCount`: wait `1000 * 2 ^ attempt` ms for each remaining attempt
below the cap of 3. -/
def backoffTargets (retryCount : Nat) : List Nat :=
  (List.range (3 - retryCount)).map (fun i => 2 ^ (retryCount + i) * 1000)

theorem backoffTargets_succ (r : Nat) (h : r < 3) :
    backoffTargets r = 2 ^ r * 1000 :: backoffTargets (r + 1) := by
  unfold backoffTargets
  have h3 : 3 - r = (3 - (r + 1)) + 1 := by omega
  rw [h3, List.range_succ_eq_map, List.map_cons, List.map_map]
  refine congrArg₂ _ (by simp) (List.map_congr_left fun i _ => ?_)
  simp only [Function.comp_apply, Nat.succ_eq_add_one]
  rw [show r + (i + 1) = r + 1 + i by omega]

/-- The waits a call performs form a prefix of the owed backoff
schedule: the i-th wait is exactly `1000 * 2 ^ i` more than the last. -/
theorem requestGeminiAPI_waits (responses : Nat → GeminiHttp)
    (retryCount : Nat) :
    ∃ t, waitsOf (requestGeminiAPI responses retryCount).1 ++ t =
      backoffTargets retryCount := by
  induction retryCount using requestGeminiAPI.induct responses with
  | case1 r m hresp =>
    refine ⟨backoffTargets r, ?_⟩
    rw [requestGeminiAPI_transport responses r m hresp]
    simp [waitsOf]
  | case2 r code st b hresp hcond ih =>
    obtain ⟨t, ht⟩ := ih
    refine ⟨t, ?_⟩
    rw [requestGeminiAPI_status responses r code st b hresp, if_pos hcond,
      backoffTargets_succ r hcond.2]
    simpa [waitsOf] using ht
  | case3 r st b hresp hcond =>
    refine ⟨backoffTargets r, ?_⟩
    rw [requestGeminiAPI_status responses r 503 st b hresp, if_neg hcond,
      if_pos rfl]
    simp [waitsOf]
  | case4 r code st b hresp hcond hne hok =>
    refine ⟨backoffTargets r, ?_⟩
    rw [requestGeminiAPI_status responses r code st b hresp, if_neg hcond,
      if_neg hne, if_pos hok]
    simp [waitsOf]
  | case5 r code st b hresp hcond hne hok =>
    refine ⟨backoffTargets r, ?_⟩
    rw [requestGeminiAPI_status responses r code st b hresp, if_neg hcond,
      if_neg hne, if_neg hok]
    simp [waitsOf]

/-- A call entered with at most 3 used attempts performs at most
`4 - retryCount` requests in total (so at most 3 retries from 0). -/
theorem requestGeminiAPI_countFetch (responses : Nat → GeminiHttp)
    (retryCount : Nat) (h : retryCount ≤ 3) :
    countFetchGemini (requestGeminiAPI responses retryCount).1 ≤
      4 - retryCount := by
  induction retryCount using requestGeminiAPI.induct responses with
  | case1 r m hresp =>
    rw [requestGeminiAPI_transport responses r m hresp]
    simp [countFetchGemini]
    omega
  | case2 r code st b hresp hcond ih =>
    have hr := hcond.2
    have ih2 := ih (by omega)
    rw [requestGeminiAPI_status responses r code st b hresp, if_pos hcond]
    simp only [countFetchGemini, List.countP_cons] at ih2 ⊢
    simp at ih2 ⊢
    omega
  | case3 r st b hresp hcond =>
    rw [requestGeminiAPI_status responses r 503 st b hresp, if_neg hcond,
      if_pos rfl]
    simp [countFetchGemini]
    omega
  | case4 r code st b hresp hcond hne hok =>
    rw [requestGeminiAPI_status responses r code st b hresp, if_neg hcond,
      if_neg hne, if_pos hok]
    simp [countFetchGemini]
    omega
  | case5 r code st b hresp hcond hne hok =>
    rw [requestGeminiAPI_status responses r code st b hresp, if_neg hcond,
      if_neg hne, if_neg hok]
    simp [countFetchGemini]
    omega

/-- With the service answering 503 on every attempt, the client fetches
4 times, waits 1000, 2000 and 4000 ms before the three retries, and
ends with the busy error for retry count 3. -/
theorem requestGeminiAPI_all_busy (responses : Nat → GeminiHttp)
    (hbusy : ∀ k, ∃ st b, responses k = GeminiHttp.status 503 st b) :
    requestGeminiAPI responses 0 =
      ([.fetchGemini, .postRetryMessage (retryMessage 1000), .waitMs 1000,
        .fetchGemini, .postRetryMessage (retryMessage 2000), .waitMs 2000,
        .fetchGemini, .postRetryMessage (retryMessage 4000), .waitMs 4000,
        .fetchGemini], GeminiOutcome.busyError 3) := by
  obtain ⟨st0, b0, h0⟩ := hbusy 0
  obtain ⟨st1, b1, h1⟩ := hbusy 1
  obtain ⟨st2, b2, h2⟩ := hbusy 2
  obtain ⟨st3, b3, h3⟩ := hbusy 3
  rw [requestGeminiAPI_status responses 0 503 st0 b0 h0,
    requestGeminiAPI_status responses 1 503 st1 b1 h1,
    requestGeminiAPI_status responses 2 503 st2 b2 h2,
    requestGeminiAPI_status responses 3 503 st3 b3 h3]
  norm_num

/-- C1: for every call of the retrying service client receiving 503
responses, the client waits exactly `1000 * 2 ^ attempt` ms before each
retry (1000, 2000, 4000 ms for attempts 0, 1, 2), performs at most 3
retries (at most 4 requests), and a 4th consecutive 503 yields the busy
service error instead of another retry. -/
theorem c1_retry_backoff_and_busy_cap (responses : Nat → GeminiHttp)
    (hbusy : ∀ k, ∃ st b, responses k = GeminiHttp.status 503 st b) :
    requestGeminiAPI responses 0 =
      ([.fetchGemini, .postRetryMessage (retryMessage 1000), .waitMs 1000,
        .fetchGemini, .postRetryMessage (retryMessage 2000), .waitMs 2000,
        .fetchGemini, .postRetryMessage (retryMessage 4000), .waitMs 4000,
        .fetchGemini], GeminiOutcome.busyError 3) ∧
    ∀ responses2 : Nat → GeminiHttp,
      countFetchGemini (requestGeminiAPI responses2 0).1 ≤ 4 ∧
      ∃ t, waitsOf (requestGeminiAPI responses2 0).1 ++ t =
        [1000, 2000, 4000] := by
  refine ⟨requestGeminiAPI_all_busy responses hbusy, fun responses2 => ⟨?_, ?_⟩⟩
  · exact requestGeminiAPI_countFetch responses2 0 (by omega)
  · have h := requestGeminiAPI_waits responses2 0
    have : backoffTargets 0 = [1000, 2000, 4000] := by decide
    rwa [this] at h

/-- Witness for C1 at the constant all-503 oracle. -/
theorem c1_witness :
    requestGeminiAPI (fun _ => GeminiHttp.status 503 "Service Unavailable" ⟨[]⟩) 0 =
      ([.fetchGemini, .postRetryMessage (retryMessage 1000), .waitMs 1000,
        .fetchGemini, .postRetryMessage (retryMessage 2000), .waitMs 2000,
        .fetchGemini, .postRetryMessage (retryMessage 4000), .waitMs 4000,
        .fetchGemini], GeminiOutcome.busyError 3) ∧
    countFetchGemini
      (requestGeminiAPI (fun _ => GeminiHttp.status 503 "Service Unavailable" ⟨[]⟩) 0).1 ≤ 4 :=
  have h := c1_retry_backoff_and_busy_cap
    (fun _ => GeminiHttp.status 503 "Service Unavailable" ⟨[]⟩)
    (fun _ => ⟨"Service Unavailable", ⟨[]⟩, rfl⟩)
  ⟨h.1, (h.2 _).1⟩

/-- C7: a response whose status is neither 2xx nor 503 makes the client
fail immediately with the rejection error carrying that status, with a
single request and no wait, whatever the current attempt count. -/
theorem c7_rejected_no_retry (responses : Nat → GeminiHttp)
    (retryCount code : Nat) (statusText : String) (body : GeminiResponse)
    (hresp : responses retryCount = GeminiHttp.status code statusText body)
    (h503 : code ≠ 503) (hok : ¬ respOk code) :
    requestGeminiAPI responses retryCount =
      ([.fetchGemini], .rejectedError code statusText) ∧
    countFetchGemini (requestGeminiAPI responses retryCount).1 = 1 ∧
    waitsOf (requestGeminiAPI responses retryCount).1 = [] := by
  have hmain : requestGeminiAPI responses retryCount =
      ([.fetchGemini], .rejectedError code statusText) := by
    rw [requestGeminiAPI_status responses retryCount code statusText body hresp,
      if_neg (by tauto), if_neg h503, if_pos hok]
  refine ⟨hmain, ?_, ?_⟩ <;> rw [hmain] <;> simp [countFetchGemini, waitsOf]

/-- Witness for C7 at a concrete 400 response on attempt 0. -/
theorem c7_witness :
    requestGeminiAPI (fun _ => GeminiHttp.status 400 "Bad Request" ⟨[]⟩) 0 =
      ([.fetchGemini], .rejectedError 400 "Bad Request") :=
  (c7_rejected_no_retry (fun _ => GeminiHttp.status 400 "Bad Request" ⟨[]⟩)
    0 400 "Bad Request" ⟨[]⟩ rfl (by omega) (by unfold respOk; omega)).1


/-! Sanitizer lemmas (claim C4). -/

theorem hasTriple_cons (c : Char) (l : List Char) :
    hasTriple (c :: l) = ((c == '\n' && startsNlNl l) || hasTriple l) := rfl

theorem hasTriple_cons_ne (c : Char) (l : List Char)
    (h : (c == '\n') = false) : hasTriple (c :: l) = hasTriple l := by
  rw [hasTriple_cons, h]
  simp

theorem startsNlNl_cons_ne (c : Char) (l : List Char)
    (h : (c == '\n') = false) : startsNlNl (c :: l) = false := by
  match l with
  | [] => rfl
  | x :: r => simp [startsNlNl, h]

theorem startsNlNl_append (a b : List Char)
    (h : startsNlNl a = true) : startsNlNl (a ++ b) = true := by
  match a with
  | [] => simp [startsNlNl] at h
  | [x] => simp [startsNlNl] at h
  | x :: y :: r => simpa [startsNlNl] using h

theorem hasTriple_append_left (a b : List Char)
    (h : hasTriple a = true) : hasTriple (a ++ b) = true := by
  induction a with
  | nil => simp [hasTriple] at h
  | cons x r ih =>
    rw [List.cons_append, hasTriple_cons]
    rw [hasTriple_cons] at h
    rcases Bool.or_eq_true_iff.mp h with h1 | h2
    · rcases Bool.and_eq_true_iff.mp h1 with ⟨hx, hs⟩
      rw [hx, startsNlNl_append r b hs]
      simp
    · rw [ih h2]
      simp

theorem hasTriple_append_right (a b : List Char)
    (h : hasTriple b = true) : hasTriple (a ++ b) = true := by
  induction a with
  | nil => simpa
  | cons x r ih =>
    rw [List.cons_append, hasTriple_cons, ih]
    simp

theorem hasTriple_append_false_left (a b : List Char)
    (h : hasTriple (a ++ b) = false) : hasTriple a = false := by
  cases ha : hasTriple a with
  | false => rfl
  | true => rw [hasTriple_append_left a b ha] at h; exact absurd h (by simp)

theorem hasTriple_append_false_right (a b : List Char)
    (h : hasTriple (a ++ b) = false) : hasTriple b = false := by
  cases hb : hasTriple b with
  | false => rfl
  | true => rw [hasTriple_append_right a b hb] at h; exact absurd h (by simp)

theorem hasTriple_replicate_le_two (m : Nat) (hm : m ≤ 2) :
    hasTriple (List.replicate m '\n') = false := by
  interval_cases m <;> decide

theorem flushNewlines_le_two (k : Nat) (hk : k ≤ 2) :
    flushNewlines k = List.replicate k '\n' := by
  unfold flushNewlines
  rw [if_neg (by omega)]

theorem hasTriple_pad (m : Nat) (hm : m ≤ 2) (c : Char)
    (hc : (c == '\n') = false) (R : List Char)
    (hR : hasTriple R = false) :
    hasTriple (List.replicate m '\n' ++ c :: R) = false := by
  have h0 : hasTriple (c :: R) = false := by
    rw [hasTriple_cons_ne c R hc]; exact hR
  have h1 : hasTriple ('\n' :: c :: R) = false := by
    rw [hasTriple_cons, startsNlNl_cons_ne c R hc, h0]
    simp
  interval_cases m
  · simpa
  · simpa [List.replicate]
  · rw [show List.replicate 2 '\n' ++ c :: R = '\n' :: '\n' :: c :: R by rfl]
    rw [hasTriple_cons, h1]
    rw [show startsNlNl ('\n' :: c :: R) = ('\n' == '\n' && c == '\n') from rfl]
    simp [hc]

theorem hasTriple_collapseAux (cs : List Char) :
    ∀ k, hasTriple (collapseNewlinesAux k cs) = false := by
  induction cs with
  | nil =>
    intro k
    unfold collapseNewlinesAux flushNewlines
    by_cases h3 : 3 ≤ k
    · rw [if_pos h3]; decide
    · rw [if_neg h3]; exact hasTriple_replicate_le_two k (by omega)
  | cons c cs ih =>
    intro k
    unfold collapseNewlinesAux
    by_cases hc : c == '\n'
    · rw [if_pos hc]; exact ih (k + 1)
    · rw [if_neg hc]
      by_cases h3 : 3 ≤ k
      · unfold flushNewlines
        rw [if_pos h3]
        exact hasTriple_pad 2 (by omega) c (by simpa using hc) _ (ih 0)
      · rw [flushNewlines_le_two k (by omega)]
        exact hasTriple_pad k (by omega) c (by simpa using hc) _ (ih 0)

theorem hasTriple_collapseNewlines (s : List Char) :
    hasTriple (collapseNewlines s) = false :=
  hasTriple_collapseAux s 0

theorem replicate_nl_ge_three (k : Nat) (h : 3 ≤ k) (cs : List Char) :
    hasTriple (List.replicate k '\n' ++ cs) = true := by
  rw [show k = 3 + (k - 3) by omega, List.replicate_add]
  rw [show List.replicate 3 '\n' = '\n' :: '\n' :: '\n' :: [] from rfl]
  simp only [List.append_assoc, List.cons_append, List.nil_append]
  rw [hasTriple_cons]
  rw [show startsNlNl ('\n' :: '\n' :: (List.replicate (k - 3) '\n' ++ cs)) =
      ('\n' == '\n' && '\n' == '\n') from rfl]
  simp

theorem collapseAux_eq_self (cs : List Char) :
    ∀ k, hasTriple (List.replicate k '\n' ++ cs) = false →
      collapseNewlinesAux k cs = List.replicate k '\n' ++ cs := by
  induction cs with
  | nil =>
    intro k h
    have hk : k ≤ 2 := by
      by_contra hk
      rw [replicate_nl_ge_three k (by omega) []] at h
      exact absurd h (by simp)
    unfold collapseNewlinesAux
    rw [flushNewlines_le_two k hk]
    simp
  | cons c cs ih =>
    intro k h
    unfold collapseNewlinesAux
    by_cases hc : c == '\n'
    · rw [if_pos hc]
      have hceq : c = '\n' := by simpa using hc
      have hrepl : List.replicate k '\n' ++ c :: cs =
          List.replicate (k + 1) '\n' ++ cs := by
        rw [hceq, List.replicate_succ', List.append_assoc]
        simp
      rw [hrepl] at h
      rw [ih (k + 1) h, hrepl]
    · rw [if_neg hc]
      have hk : k ≤ 2 := by
        by_contra hk
        rw [replicate_nl_ge_three k (by omega) (c :: cs)] at h
        exact absurd h (by simp)
      have hcs : hasTriple cs = false := by
        have hsplit : List.replicate k '\n' ++ c :: cs =
            (List.replicate k '\n' ++ [c]) ++ cs := by simp
        rw [hsplit] at h
        exact hasTriple_append_false_right _ _ h
      rw [flushNewlines_le_two k hk, ih 0 (by simpa using hcs)]
      simp

theorem collapseNewlines_eq_self (s : List Char)
    (h : hasTriple s = false) : collapseNewlines s = s := by
  unfold collapseNewlines
  rw [collapseAux_eq_self s 0 (by simpa using h)]
  simp

theorem collapseAux_chars (cs : List Char) :
    ∀ k c, c ∈ collapseNewlinesAux k cs → c = '\n' ∨ c ∈ cs := by
  induction cs with
  | nil =>
    intro k c hc
    unfold collapseNewlinesAux flushNewlines at hc
    exact Or.inl (List.eq_of_mem_replicate hc)
  | cons x cs ih =>
    intro k c hc
    unfold collapseNewlinesAux at hc
    by_cases hx : x == '\n'
    · rw [if_pos hx] at hc
      rcases ih (k + 1) c hc with h | h
      · exact Or.inl h
      · exact Or.inr (List.mem_cons_of_mem x h)
    · rw [if_neg hx] at hc
      rcases List.mem_append.mp hc with h | h
      · exact Or.inl (List.eq_of_mem_replicate h)
      · rcases List.mem_cons.mp h with h | h
        · exact Or.inr (h ▸ List.mem_cons_self x cs)
        · rcases ih 0 c h with h2 | h2
          · exact Or.inl h2
          · exact Or.inr (List.mem_cons_of_mem x h2)


/-! Trim lemmas and the sanitizer theorem. -/

theorem dropWhile_head_false (p : Char → Bool) (l : List Char) :
    ∀ c, (l.dropWhile p).head? = some c → p c = false := by
  induction l with
  | nil => intro c h; simp [List.dropWhile] at h
  | cons x r ih =>
    intro c h
    rw [List.dropWhile_cons] at h
    by_cases hx : p x
    · rw [if_pos hx] at h
      exact ih c h
    · rw [if_neg hx] at h
      simp only [List.head?_cons, Option.some_inj] at h
      rw [← h]
      exact Bool.eq_false_iff.mpr hx

theorem dropWhile_eq_self_of_head (p : Char → Bool) (l : List Char)
    (h : ∀ c, l.head? = some c → p c = false) : l.dropWhile p = l := by
  cases l with
  | nil => rfl
  | cons x r =>
    rw [List.dropWhile_cons, if_neg]
    rw [h x rfl]
    simp

theorem dropWhile_suffix_ex (p : Char → Bool) (l : List Char) :
    ∃ a, a ++ l.dropWhile p = l := by
  induction l with
  | nil => exact ⟨[], rfl⟩
  | cons x r ih =>
    by_cases hx : p x
    · obtain ⟨a, ha⟩ := ih
      exact ⟨x :: a, by rw [List.dropWhile_cons, if_pos hx, List.cons_append, ha]⟩
    · exact ⟨[], by rw [List.dropWhile_cons, if_neg hx]; rfl⟩

theorem head?_append_some (a b : List Char) (c : Char)
    (h : a.head? = some c) : (a ++ b).head? = some c := by
  cases a with
  | nil => simp at h
  | cons x r => simpa using h

theorem trimLeft_head_not_ws (s : List Char) :
    ∀ c, (trimLeft s).head? = some c → isJsWhitespace c = false :=
  dropWhile_head_false isJsWhitespace s

theorem trimLeft_suffix_ex (s : List Char) : ∃ a, a ++ trimLeft s = s :=
  dropWhile_suffix_ex isJsWhitespace s

theorem trimRight_prefix_ex (s : List Char) : ∃ b, trimRight s ++ b = s := by
  obtain ⟨a, ha⟩ := dropWhile_suffix_ex isJsWhitespace s.reverse
  refine ⟨a.reverse, ?_⟩
  have := congrArg List.reverse ha
  rw [List.reverse_append, List.reverse_reverse] at this
  exact this

theorem trimRight_getLast_not_ws (s : List Char) :
    ∀ c, (trimRight s).getLast? = some c → isJsWhitespace c = false := by
  intro c h
  unfold trimRight at h
  rw [List.getLast?_reverse] at h
  exact dropWhile_head_false isJsWhitespace s.reverse c h

theorem trimRight_eq_self_of_getLast (s : List Char)
    (h : ∀ c, s.getLast? = some c → isJsWhitespace c = false) :
    trimRight s = s := by
  unfold trimRight
  rw [dropWhile_eq_self_of_head isJsWhitespace s.reverse
    (fun c hc => h c (by rwa [List.head?_reverse] at hc))]
  exact List.reverse_reverse s

theorem jsTrim_head_not_ws (s : List Char) :
    ∀ c, (jsTrim s).head? = some c → isJsWhitespace c = false := by
  intro c h
  unfold jsTrim at h
  obtain ⟨b, hb⟩ := trimRight_prefix_ex (trimLeft s)
  exact trimLeft_head_not_ws s c (by rw [← hb]; exact head?_append_some _ _ c h)

theorem jsTrim_getLast_not_ws (s : List Char) :
    ∀ c, (jsTrim s).getLast? = some c → isJsWhitespace c = false :=
  trimRight_getLast_not_ws (trimLeft s)

theorem jsTrim_idem (s : List Char) : jsTrim (jsTrim s) = jsTrim s := by
  have h1 : trimLeft (jsTrim s) = jsTrim s :=
    dropWhile_eq_self_of_head isJsWhitespace (jsTrim s) (jsTrim_head_not_ws s)
  show trimRight (trimLeft (jsTrim s)) = jsTrim s
  rw [h1]
  exact trimRight_eq_self_of_getLast (jsTrim s) (jsTrim_getLast_not_ws s)

theorem mem_jsTrim (s : List Char) (c : Char) (h : c ∈ jsTrim s) : c ∈ s := by
  obtain ⟨b, hb⟩ := trimRight_prefix_ex (trimLeft s)
  obtain ⟨a, ha⟩ := trimLeft_suffix_ex s
  have h1 : c ∈ trimLeft s := by
    rw [← hb]
    exact List.mem_append_left b h
  rw [← ha]
  exact List.mem_append_right a h1

theorem hasTriple_jsTrim (s : List Char) (h : hasTriple s = false) :
    hasTriple (jsTrim s) = false := by
  obtain ⟨a, ha⟩ := trimLeft_suffix_ex s
  have h1 : hasTriple (trimLeft s) = false :=
    hasTriple_append_false_right a _ (by rwa [ha])
  obtain ⟨b, hb⟩ := trimRight_prefix_ex (trimLeft s)
  exact hasTriple_append_false_left _ b (by rw [show jsTrim s = trimRight (trimLeft s) from rfl, hb]; exact h1)

theorem clean_noDecor (s : List Char) :
    ∀ c ∈ cleanReviewText s, isDecorChar c = false := by
  intro c hc
  have h1 : c ∈ collapseNewlines (s.filter (fun c => !isDecorChar c)) :=
    mem_jsTrim _ c hc
  rcases collapseAux_chars _ 0 c h1 with h | h
  · rw [h]; rfl
  · have := List.of_mem_filter h
    simpa using this

theorem clean_filter_eq (s : List Char) :
    (cleanReviewText s).filter (fun c => !isDecorChar c) = cleanReviewText s :=
  List.filter_eq_self.mpr (fun c hc => by rw [clean_noDecor s c hc]; rfl)

theorem clean_noTriple (s : List Char) :
    hasTriple (cleanReviewText s) = false :=
  hasTriple_jsTrim _ (hasTriple_collapseNewlines _)

/-- C4: the response sanitizer is a pure total function that is
idempotent, its output never contains a run of more than two
consecutive newlines, and its output has no leading or trailing
whitespace. -/
theorem c4_clean_idempotent_normalized (s : List Char) :
    cleanReviewText (cleanReviewText s) = cleanReviewText s ∧
    hasTriple (cleanReviewText s) = false ∧
    (∀ c, (cleanReviewText s).head? = some c → isJsWhitespace c = false) ∧
    (∀ c, (cleanReviewText s).getLast? = some c → isJsWhitespace c = false) := by
  refine ⟨?_, clean_noTriple s, jsTrim_head_not_ws _, jsTrim_getLast_not_ws _⟩
  show jsTrim (collapseNewlines ((cleanReviewText s).filter
    (fun c => !isDecorChar c))) = cleanReviewText s
  rw [clean_filter_eq s, collapseNewlines_eq_self _ (clean_noTriple s)]
  exact jsTrim_idem _

/-- Concrete input for the C4 witness: a decorated, padded text. -/
def c4demo : List Char :=
  ['*', ' ', 'a', '\n', '\n', '\n', 'b', '>', ' ']

/-- Witness for C4 at `c4demo`, whose cleaned form is `a\n\nb` with
head `a` and last character `b`. -/
theorem c4_witness :
    cleanReviewText (cleanReviewText c4demo) = cleanReviewText c4demo ∧
    hasTriple (cleanReviewText c4demo) = false ∧
    isJsWhitespace 'a' = false ∧ isJsWhitespace 'b' = false :=
  have h := c4_clean_idempotent_normalized c4demo
  ⟨h.1, h.2.1, h.2.2.1 'a' (by decide), h.2.2.2 'b' (by decide)⟩

/-! Base64 lemmas (claim C9). -/

theorem b64val_b64char : ∀ v, v < 64 → b64val (b64char v) = v := by decide

theorem b64char_ne_pad : ∀ v, v < 64 → (b64char v == '=') = false := by decide

theorem encode_nil : arrayBufferToBase64 [] = [] := rfl

theorem encode_one (a : Nat) :
    arrayBufferToBase64 [a] =
      [b64char (a * 65536 / 262144 % 64), b64char (a * 65536 / 4096 % 64),
       '=', '='] := rfl

theorem encode_two (a b : Nat) :
    arrayBufferToBase64 [a, b] =
      [b64char ((a * 65536 + b * 256) / 262144 % 64),
       b64char ((a * 65536 + b * 256) / 4096 % 64),
       b64char ((a * 65536 + b * 256) / 64 % 64), '='] := rfl

theorem encode_cons (a b c : Nat) (rest : List Nat) :
    arrayBufferToBase64 (a :: b :: c :: rest) =
      b64char ((a * 65536 + b * 256 + c) / 262144 % 64) ::
      b64char ((a * 65536 + b * 256 + c) / 4096 % 64) ::
      b64char ((a * 65536 + b * 256 + c) / 64 % 64) ::
      b64char ((a * 65536 + b * 256 + c) % 64) ::
      arrayBufferToBase64 rest := rfl

theorem decode_two_pad (c1 c2 : Char) :
    decodeB64 [c1, c2, '=', '='] = [b64val c1 * 4 + b64val c2 / 16] := by
  unfold decodeB64
  rw [if_pos (show (('=' : Char) == '=') = true from rfl)]

theorem decode_one_pad (c1 c2 c3 : Char) (h : (c3 == '=') = false) :
    decodeB64 [c1, c2, c3, '='] =
      [b64val c1 * 4 + b64val c2 / 16,
       b64val c2 % 16 * 16 + b64val c3 / 4] := by
  unfold decodeB64
  rw [if_neg (by simp [h]), if_pos (show (('=' : Char) == '=') = true from rfl)]

theorem decode_full (c1 c2 c3 c4 : Char) (rest : List Char)
    (h3 : (c3 == '=') = false) (h4 : (c4 == '=') = false) :
    decodeB64 (c1 :: c2 :: c3 :: c4 :: rest) =
      (b64val c1 * 4 + b64val c2 / 16) ::
      (b64val c2 % 16 * 16 + b64val c3 / 4) ::
      (b64val c3 % 4 * 64 + b64val c4) ::
      decodeB64 rest := by
  conv_lhs => rw [decodeB64]
  rw [if_neg (by simp [h3]), if_neg (by simp [h4])]

theorem arrayBufferToBase64_length (l : List Nat) :
    (arrayBufferToBase64 l).length = 4 * ((l.length + 2) / 3) := by
  induction l using arrayBufferToBase64.induct with
  | case1 => simp [encode_nil]
  | case2 a => simp [encode_one]
  | case3 a b => simp [encode_two]
  | case4 a b c rest ih =>
    rw [encode_cons]
    simp only [List.length_cons, ih]
    omega

theorem arrayBufferToBase64_pad_iff (l : List Nat) :
    '=' ∈ arrayBufferToBase64 l ↔ l.length % 3 ≠ 0 := by
  induction l using arrayBufferToBase64.induct with
  | case1 => simp [encode_nil]
  | case2 a => simp [encode_one]
  | case3 a b => simp [encode_two]
  | case4 a b c rest ih =>
    have h1 := b64char_ne_pad ((a * 65536 + b * 256 + c) / 262144 % 64)
      (Nat.mod_lt _ (by omega))
    have h2 := b64char_ne_pad ((a * 65536 + b * 256 + c) / 4096 % 64)
      (Nat.mod_lt _ (by omega))
    have h3 := b64char_ne_pad ((a * 65536 + b * 256 + c) / 64 % 64)
      (Nat.mod_lt _ (by omega))
    have h4 := b64char_ne_pad ((a * 65536 + b * 256 + c) % 64)
      (Nat.mod_lt _ (by omega))
    rw [encode_cons]
    simp only [List.mem_cons, List.length_cons]
    constructor
    · intro hmem
      rcases hmem with h | h | h | h | h
      · exact absurd (beq_iff_eq.mpr h.symm) (by rw [h1]; simp)
      · exact absurd (beq_iff_eq.mpr h.symm) (by rw [h2]; simp)
      · exact absurd (beq_iff_eq.mpr h.symm) (by rw [h3]; simp)
      · exact absurd (beq_iff_eq.mpr h.symm) (by rw [h4]; simp)
      · have := ih.mp h
        omega
    · intro hmod
      have hr : rest.length % 3 ≠ 0 := by omega
      exact Or.inr (Or.inr (Or.inr (Or.inr (ih.mpr hr))))

theorem decodeB64_encode (l : List Nat) (h : ∀ b ∈ l, b < 256) :
    decodeB64 (arrayBufferToBase64 l) = l := by
  induction l using arrayBufferToBase64.induct with
  | case1 => rfl
  | case2 a =>
    have ha : a < 256 := h a (by simp)
    rw [encode_one, decode_two_pad,
      b64val_b64char _ (Nat.mod_lt _ (by omega)),
      b64val_b64char _ (Nat.mod_lt _ (by omega))]
    congr 1
    omega
  | case3 a b =>
    have ha : a < 256 := h a (by simp)
    have hb : b < 256 := h b (by simp)
    rw [encode_two, decode_one_pad _ _ _
        (b64char_ne_pad _ (Nat.mod_lt _ (by omega))),
      b64val_b64char _ (Nat.mod_lt _ (by omega)),
      b64val_b64char _ (Nat.mod_lt _ (by omega)),
      b64val_b64char _ (Nat.mod_lt _ (by omega))]
    refine congrArg₂ _ (by omega) (congrArg₂ _ (by omega) rfl)
  | case4 a b c rest ih =>
    have ha : a < 256 := h a (by simp)
    have hb : b < 256 := h b (by simp)
    have hc : c < 256 := h c (by simp)
    have hrest : ∀ x ∈ rest, x < 256 := fun x hx => h x (by simp [hx])
    rw [encode_cons, decode_full _ _ _ _ _
        (b64char_ne_pad _ (Nat.mod_lt _ (by omega)))
        (b64char_ne_pad _ (Nat.mod_lt _ (by omega))),
      b64val_b64char _ (Nat.mod_lt _ (by omega)),
      b64val_b64char _ (Nat.mod_lt _ (by omega)),
      b64val_b64char _ (Nat.mod_lt _ (by omega)),
      b64val_b64char _ (Nat.mod_lt _ (by omega)),
      ih hrest]
    refine congrArg₂ _ (by omega) (congrArg₂ _ (by omega)
      (congrArg₂ _ (by omega) rfl))

/-- C9: `arrayBufferToBase64` is standard base64: the output of an
n-byte input has length `4 * ceil(n / 3)`, contains padding `'='`
exactly when `n % 3 ≠ 0`, and standard base64 decoding recovers the
original bytes. -/
theorem c9_base64_standard (l : List Nat) (h : ∀ b ∈ l, b < 256) :
    (arrayBufferToBase64 l).length = 4 * ((l.length + 2) / 3) ∧
    ('=' ∈ arrayBufferToBase64 l ↔ l.length % 3 ≠ 0) ∧
    decodeB64 (arrayBufferToBase64 l) = l :=
  ⟨arrayBufferToBase64_length l, arrayBufferToBase64_pad_iff l,
    decodeB64_encode l h⟩

/-- Witness for C9 on the bytes `[77, 97, 110, 33]` (whose base64
rendering is `TWFuIQ==`). -/
theorem c9_witness :
    (arrayBufferToBase64 [77, 97, 110, 33]).length = 8 ∧
    decodeB64 (arrayBufferToBase64 [77, 97, 110, 33]) = [77, 97, 110, 33] :=
  have h := c9_base64_standard [77, 97, 110, 33] (by decide)
  ⟨h.1.trans (by norm_num), h.2.2⟩


/-! Handler lemmas and the selection claim (C3). -/

def CredResult.storeOf : CredResult → Storage
  | .fault st _ => st
  | .missing st _ => st
  | .proceed _ _ st _ => st

theorem credPhase_proceed_events (store : Storage) (env : Env) (msg : Msg)
    (apiKey figmaToken : String) (st : Storage) (evts : List Event)
    (h : credPhase store env msg = .proceed apiKey figmaToken st evts) :
    ∀ e ∈ evts, (∃ v, e = Event.storageSetApiKey v) ∨
      ∃ v, e = Event.storageSetFigmaToken v := by
  unfold credPhase at h
  split at h
  · split at h
    · exact absurd h (by simp)
    · split at h
      · exact absurd h (by simp)
      · split at h
        · exact absurd h (by simp)
        · simp only [CredResult.proceed.injEq] at h
          rw [← h.2.2.2]
          intro e he
          exact absurd he (List.not_mem_nil e)
  · split at h
    · exact absurd h (by simp)
    · split at h
      · exact absurd h (by simp)
      · simp only [CredResult.proceed.injEq] at h
        rw [← h.2.2.2]
        intro e he
        rcases List.mem_cons.mp he with rfl | h1
        · exact Or.inl ⟨_, rfl⟩
        · rcases List.mem_singleton.mp h1 with rfl
          exact Or.inr ⟨_, rfl⟩

theorem credPhase_proceed_not_mem (store : Storage) (env : Env) (msg : Msg)
    (apiKey figmaToken : String) (st : Storage) (evts : List Event)
    (h : credPhase store env msg = .proceed apiKey figmaToken st evts) :
    Event.closePlugin ∉ evts ∧ Event.postFinished ∉ evts ∧
    Event.fetchComment ∉ evts ∧ Event.fetchGemini ∉ evts := by
  have hs := credPhase_proceed_events store env msg apiKey figmaToken st evts h
  refine ⟨fun hm => ?_, fun hm => ?_, fun hm => ?_, fun hm => ?_⟩ <;>
    rcases hs _ hm with ⟨v, hv⟩ | ⟨v, hv⟩ <;> cases hv

theorem gemini_not_mem (responses : Nat → GeminiHttp) (r : Nat) :
    Event.closePlugin ∉ (requestGeminiAPI responses r).1 ∧
    Event.postFinished ∉ (requestGeminiAPI responses r).1 ∧
    Event.fetchComment ∉ (requestGeminiAPI responses r).1 := by
  have hs := requestGeminiAPI_event_shape responses r
  refine ⟨fun hm => ?_, fun hm => ?_, fun hm => ?_⟩ <;>
    rcases hs _ hm with hv | ⟨v, hv⟩ | ⟨v, hv⟩ <;> cases hv

/-- C3: whenever the credential phase proceeds but the selection is
empty, multiple, or of an unsupported kind, the run ends with the
branch-specific notice and a finished signal, and no network request
(neither the Gemini call nor the comment POST) occurs; the three
rejection rules apply in the source's order. -/
theorem c3_invalid_selection_no_network (store : Storage) (env : Env)
    (msg : Msg) (apiKey figmaToken : String) (st : Storage)
    (evts0 : List Event) (reason : RejectReason)
    (hcred : credPhase store env msg = .proceed apiKey figmaToken st evts0)
    (hsel : validateSelection env.selection = .error reason) :
    handleGetReview store env msg =
      .done st (evts0 ++ [.notify (rejectionNotice reason), .postFinished]) ∧
    (∀ e ∈ evts0 ++ [Event.notify (rejectionNotice reason),
        Event.postFinished], isNetworkEvent e = false) ∧
    validateSelection [] = .error .noSelection ∧
    (∀ n m rest, validateSelection (n :: m :: rest) =
      .error .multipleSelection) ∧
    (∀ n : SceneNode, n.kind ≠ .frameKind → n.kind ≠ .componentKind →
      n.kind ≠ .instanceKind → validateSelection [n] =
        .error .unsupportedKind) := by
  refine ⟨?_, ?_, rfl, fun n m rest => rfl, fun n h1 h2 h3 => ?_⟩
  · unfold handleGetReview
    rw [hcred, hsel]
  · intro e he
    rcases List.mem_append.mp he with h1 | h1
    · rcases credPhase_proceed_events store env msg apiKey figmaToken st
        evts0 hcred e h1 with ⟨v, hv⟩ | ⟨v, hv⟩ <;> rw [hv] <;> rfl
    · rcases List.mem_cons.mp h1 with rfl | h2
      · rfl
      · rcases List.mem_singleton.mp h2 with rfl
        rfl
  · rw [show validateSelection [n] =
        (if n.kind ≠ NodeKind.frameKind ∧ n.kind ≠ NodeKind.componentKind ∧
            n.kind ≠ NodeKind.instanceKind then
          Except.error RejectReason.unsupportedKind
        else Except.ok n) from rfl, if_pos ⟨h1, h2, h3⟩]

/-- Environment used by several witnesses: no storage faults, an empty
selection, and inert network oracles. -/
def plainEnv : Env :=
  { loadApiKeyFails := false, loadFigmaTokenFails := false,
    saveApiKeyFails := false, saveFigmaTokenFails := false,
    selection := [],
    exportResult := Except.error none,
    geminiResponses := fun _ => GeminiHttp.transportError "down",
    fileKey := none,
    commentHttp := none }

/-- Witness for C3: stored credentials present, empty selection. -/
theorem c3_witness :
    handleGetReview ⟨some "k", some "t"⟩ plainEnv ⟨none, none, none⟩ =
      .done ⟨some "k", some "t"⟩
        [.notify (rejectionNotice .noSelection), .postFinished] :=
  have h := c3_invalid_selection_no_network ⟨some "k", some "t"⟩ plainEnv
    ⟨none, none, none⟩ "k" "t" ⟨some "k", some "t"⟩ [] RejectReason.noSelection
    (by rfl) (by rfl)
  h.1

/-! Credential persistence (claim C2). -/

theorem handleGetReview_store_eq (store : Storage) (env : Env) (msg : Msg) :
    (handleGetReview store env msg).store =
      (credPhase store env msg).storeOf := by
  unfold handleGetReview
  split <;> rename_i heq <;> rw [heq] <;> repeat' split
  all_goals rfl

theorem c2_counterexample_one_secret_not_persisted :
    (handleGetReview ⟨none, none⟩ plainEnv ⟨some "k", none, none⟩).store =
      ⟨none, none⟩ ∧
    handleGetReview ⟨none, none⟩ plainEnv ⟨some "k", none, none⟩ =
      .done ⟨none, none⟩
        [.notify (missingNotice none none), .postFinished] ∧
    missingNotice none none = "APIキーとFigmaトークンが入力されていません。" ∧
    handleLoadApiKey ⟨none, none⟩ plainEnv = .done ⟨none, none⟩ [] := by
  refine ⟨rfl, rfl, rfl, rfl⟩

theorem truthy_some_ne (k : String) (h : k ≠ "") : truthy (some k) = true := by
  unfold truthy
  simp [h]

/-- C2 (amended): secrets are persisted only when the command carries
both; then subsequent loads return exactly those values.  A command
carrying only one secret persists nothing - the run reads both secrets
from storage and, if either stored secret is absent, fails with a
notice naming every absent stored secret (possibly including the one
just supplied) and a finished signal. -/
theorem c2_amended_persistence :
    (∀ (store : Storage) (env : Env) (msg : Msg) (k t : String),
       msg.apiKey = some k → k ≠ "" → msg.figmaToken = some t → t ≠ "" →
       env.saveApiKeyFails = false → env.saveFigmaTokenFails = false →
       credPhase store env msg =
         .proceed k t ⟨some k, some t⟩
           [.storageSetApiKey k, .storageSetFigmaToken t] ∧
       (handleGetReview store env msg).store = ⟨some k, some t⟩ ∧
       (∀ env2 : Env, env2.loadApiKeyFails = false →
         handleLoadApiKey ⟨some k, some t⟩ env2 =
           .done ⟨some k, some t⟩ [.postApiKeyLoaded k]) ∧
       (∀ env2 : Env, env2.loadFigmaTokenFails = false →
         handleLoadFigmaToken ⟨some k, some t⟩ env2 =
           .done ⟨some k, some t⟩ [.postFigmaTokenLoaded t])) ∧
    (∀ (store : Storage) (env : Env) (msg : Msg),
       (truthy msg.apiKey && truthy msg.figmaToken) = false →
       env.loadApiKeyFails = false → env.loadFigmaTokenFails = false →
       (handleGetReview store env msg).store = store ∧
       ((truthy store.apiKey && truthy store.figmaToken) = false →
         handleGetReview store env msg =
           .done store [.notify (missingNotice store.apiKey store.figmaToken),
             .postFinished])) := by
  constructor
  · intro store env msg k t hk hk2 ht ht2 hs1 hs2
    have htk : truthy msg.apiKey = true := by rw [hk]; exact truthy_some_ne k hk2
    have htt : truthy msg.figmaToken = true := by
      rw [ht]; exact truthy_some_ne t ht2
    have hcred : credPhase store env msg =
        .proceed k t ⟨some k, some t⟩
          [.storageSetApiKey k, .storageSetFigmaToken t] := by
      unfold credPhase
      rw [if_neg (by rw [htk, htt]; simp), if_neg (by rw [hs1]; simp),
        if_neg (by rw [hs2]; simp), hk, ht]
      rfl
    refine ⟨hcred, ?_, ?_, ?_⟩
    · rw [handleGetReview_store_eq, hcred]
      rfl
    · intro env2 hl
      unfold handleLoadApiKey
      rw [if_neg (by rw [hl]; simp)]
      show (if (k == "") = true then _ else _) = _
      rw [if_neg (by simp [hk2])]
    · intro env2 hl
      unfold handleLoadFigmaToken
      rw [if_neg (by rw [hl]; simp)]
      show (if (t == "") = true then _ else _) = _
      rw [if_neg (by simp [ht2])]
  · intro store env msg hno hl1 hl2
    have hcond : (!truthy msg.apiKey || !truthy msg.figmaToken) = true := by
      cases h1 : truthy msg.apiKey <;> cases h2 : truthy msg.figmaToken <;>
        simp_all
    constructor
    · rw [handleGetReview_store_eq]
      unfold credPhase
      rw [if_pos hcond, if_neg (by rw [hl1]; simp),
        if_neg (by rw [hl2]; simp)]
      split <;> rfl
    · intro hstore
      have hcond2 : (!truthy store.apiKey || !truthy store.figmaToken) = true := by
        cases h1 : truthy store.apiKey <;> cases h2 : truthy store.figmaToken <;>
          simp_all
      have hcred : credPhase store env msg =
          .missing store [.notify (missingNotice store.apiKey store.figmaToken),
            .postFinished] := by
        unfold credPhase
        rw [if_pos hcond, if_neg (by rw [hl1]; simp),
          if_neg (by rw [hl2]; simp), if_pos hcond2]
      unfold handleGetReview
      rw [hcred]

/-- Witness for C2's amended statement, at both a both-secrets command
and a command carrying only the service key. -/
theorem c2_witness :
    credPhase ⟨none, none⟩ plainEnv ⟨some "k", some "t", none⟩ =
      .proceed "k" "t" ⟨some "k", some "t"⟩
        [.storageSetApiKey "k", .storageSetFigmaToken "t"] ∧
    handleLoadApiKey ⟨some "k", some "t"⟩ plainEnv =
      .done ⟨some "k", some "t"⟩ [.postApiKeyLoaded "k"] ∧
    handleGetReview ⟨none, none⟩ plainEnv ⟨some "k", none, none⟩ =
      .done ⟨none, none⟩
        [.notify (missingNotice none none), .postFinished] :=
  have h1 := c2_amended_persistence.1 ⟨none, none⟩ plainEnv
    ⟨some "k", some "t", none⟩ "k" "t" rfl (by decide) rfl (by decide) rfl rfl
  have h2 := c2_amended_persistence.2 ⟨none, none⟩ plainEnv
    ⟨some "k", none, none⟩ (by rfl) rfl rfl
  ⟨h1.1, h1.2.2.1 plainEnv rfl, h2.2 (by rfl)⟩

/-! Storage-fault behaviour (claim C6). -/

/-- Environment whose api-key load rejects. -/
def loadFailEnv : Env := { plainEnv with loadApiKeyFails := true }

/-- Environment whose api-key save rejects. -/
def saveFailEnv : Env := { plainEnv with saveApiKeyFails := true }

theorem c6_counterexample_storage_fault_escapes :
    handleGetReview ⟨none, none⟩ loadFailEnv ⟨none, none, none⟩ =
      .fault ⟨none, none⟩ [] := rfl

/-- C6 (amended): clientStorage errors are not handled by the
get-review path: when the credential loads are reached and the api-key
load rejects, or when both secrets are supplied and the api-key save
rejects, the rejection escapes the handler as an unhandled fault - no
notice, no finished signal, no treat-as-absent fallback. -/
theorem c6_amended_storage_faults (store : Storage) (env : Env) (msg : Msg) :
    ((truthy msg.apiKey && truthy msg.figmaToken) = false →
      env.loadApiKeyFails = true →
      handleGetReview store env msg = .fault store []) ∧
    ((truthy msg.apiKey && truthy msg.figmaToken) = true →
      env.saveApiKeyFails = true →
      handleGetReview store env msg = .fault store []) := by
  constructor
  · intro hno hload
    have hcond : (!truthy msg.apiKey || !truthy msg.figmaToken) = true := by
      cases h1 : truthy msg.apiKey <;> cases h2 : truthy msg.figmaToken <;>
        simp_all
    have hcred : credPhase store env msg = .fault store [] := by
      unfold credPhase
      rw [if_pos hcond, if_pos hload]
    unfold handleGetReview
    rw [hcred]
  · intro hboth hsave
    have hcond : (!truthy msg.apiKey || !truthy msg.figmaToken) = false := by
      cases h1 : truthy msg.apiKey <;> cases h2 : truthy msg.figmaToken <;>
        simp_all
    have hcred : credPhase store env msg = .fault store [] := by
      unfold credPhase
      rw [if_neg (by rw [hcond]; simp), if_pos hsave]
    unfold handleGetReview
    rw [hcred]

/-- Witness for C6's amended statement at a failing load and a failing
save. -/
theorem c6_witness :
    handleGetReview ⟨none, none⟩ loadFailEnv ⟨none, none, none⟩ =
      .fault ⟨none, none⟩ [] ∧
    handleGetReview ⟨none, none⟩ saveFailEnv ⟨some "k", some "t", none⟩ =
      .fault ⟨none, none⟩ [] :=
  ⟨(c6_amended_storage_faults ⟨none, none⟩ loadFailEnv ⟨none, none, none⟩).1
      rfl rfl,
   (c6_amended_storage_faults ⟨none, none⟩ saveFailEnv
      ⟨some "k", some "t", none⟩).2 (by decide) rfl⟩

/-! Malformed-response handling (claim C8). -/

/-- C8: a 2xx service response whose body lacks the result-candidate
path (no candidate, no part, or absent/empty text) ends the run in a
controlled way - a user notice and a finished signal - with no comment
POST and no plugin close. -/
theorem c8_malformed_controlled (store : Storage) (env : Env) (msg : Msg)
    (apiKey figmaToken : String) (st : Storage) (evts0 gevts : List Event)
    (node : SceneNode) (bytes : List Nat) (r : GeminiResponse)
    (hcred : credPhase store env msg = .proceed apiKey figmaToken st evts0)
    (hsel : validateSelection env.selection = .ok node)
    (hexp : env.exportResult = .ok bytes)
    (hgem : requestGeminiAPI env.geminiResponses 0 = (gevts, .success r))
    (hext : extractText r = none) :
    handleGetReview store env msg =
      .done st (evts0 ++ [.notify fetchingNotice] ++ [] ++ gevts ++
        [.notify malformedNotice, .postFinished]) ∧
    Event.fetchComment ∉ (evts0 ++ [Event.notify fetchingNotice] ++ [] ++
      gevts ++ [Event.notify malformedNotice, Event.postFinished]) ∧
    Event.closePlugin ∉ (evts0 ++ [Event.notify fetchingNotice] ++ [] ++
      gevts ++ [Event.notify malformedNotice, Event.postFinished]) := by
  have hexp2 : exportNodeAsPng env.exportResult = (some bytes, []) := by
    rw [hexp]
    rfl
  have hne0 := credPhase_proceed_not_mem store env msg apiKey figmaToken st
    evts0 hcred
  have hg1 : (requestGeminiAPI env.geminiResponses 0).1 = gevts := by
    rw [hgem]
  have hnm := gemini_not_mem env.geminiResponses 0
  rw [hg1] at hnm
  refine ⟨?_, ?_, ?_⟩
  · unfold handleGetReview
    simp only [hcred, hsel, hexp2, hgem, hext]
  · intro hmem
    rcases List.mem_append.mp hmem with h | h
    · rcases List.mem_append.mp h with h | h
      · rcases List.mem_append.mp h with h | h
        · rcases List.mem_append.mp h with h | h
          · exact hne0.2.2.1 h
          · simp at h
        · simp at h
      · exact hnm.2.2 h
    · simp at h
  · intro hmem
    rcases List.mem_append.mp hmem with h | h
    · rcases List.mem_append.mp h with h | h
      · rcases List.mem_append.mp h with h | h
        · rcases List.mem_append.mp h with h | h
          · exact hne0.1 h
          · simp at h
        · simp at h
      · exact hnm.1 h
    · simp at h

/-- Environment for the C8 witness: one frame selected, export
succeeds, Gemini answers 200 with an empty candidate list. -/
def c8Env : Env :=
  { plainEnv with
    selection := [⟨NodeKind.frameKind, "1:2"⟩],
    exportResult := Except.ok [0],
    geminiResponses := fun _ => GeminiHttp.status 200 "OK" ⟨[]⟩,
    fileKey := some "FK",
    commentHttp := some 200 }

theorem c8Env_gemini :
    requestGeminiAPI c8Env.geminiResponses 0 =
      ([.fetchGemini], .success ⟨[]⟩) := by
  rw [requestGeminiAPI_status c8Env.geminiResponses 0 200 "OK" ⟨[]⟩ rfl]
  norm_num [respOk]

/-- Witness for C8 at `c8Env` with both secrets supplied. -/
theorem c8_witness :
    handleGetReview ⟨none, none⟩ c8Env ⟨some "k", some "t", none⟩ =
      .done ⟨some "k", some "t"⟩
        ([.storageSetApiKey "k", .storageSetFigmaToken "t"] ++
          [.notify fetchingNotice] ++ [] ++ [.fetchGemini] ++
          [.notify malformedNotice, .postFinished]) :=
  (c8_malformed_controlled ⟨none, none⟩ c8Env ⟨some "k", some "t", none⟩
    "k" "t" ⟨some "k", some "t"⟩
    [.storageSetApiKey "k", .storageSetFigmaToken "t"] [.fetchGemini]
    ⟨NodeKind.frameKind, "1:2"⟩ [0] ⟨[]⟩
    rfl rfl rfl c8Env_gemini rfl).1

/-! Close-versus-finished behaviour (claim C10). -/

theorem credPhase_missing_events (store : Storage) (env : Env) (msg : Msg)
    (st : Storage) (evts : List Event)
    (h : credPhase store env msg = .missing st evts) :
    evts = [Event.notify (missingNotice store.apiKey store.figmaToken),
      Event.postFinished] := by
  unfold credPhase at h
  split at h
  · split at h
    · simp at h
    · split at h
      · simp at h
      · split at h
        · simp only [CredResult.missing.injEq] at h
          exact h.2.symm
        · simp at h
  · split at h
    · simp at h
    · split at h
      · simp at h
      · simp at h

theorem exportNodeAsPng_some_evts (res : Except (Option String) (List Nat))
    (bytes : List Nat) (evts : List Event)
    (h : exportNodeAsPng res = (some bytes, evts)) : evts = [] := by
  cases res with
  | error e => cases e <;> simp [exportNodeAsPng] at h
  | ok b =>
    simp only [exportNodeAsPng, Prod.mk.injEq] at h
    exact h.2.symm

theorem exportNodeAsPng_none_evts (res : Except (Option String) (List Nat))
    (evts : List Event)
    (h : exportNodeAsPng res = (none, evts)) :
    ∃ m, evts = [Event.notify m, Event.postFinished] := by
  cases res with
  | ok b => simp [exportNodeAsPng] at h
  | error e =>
    cases e with
    | none =>
      simp only [exportNodeAsPng, Prod.mk.injEq] at h
      exact ⟨_, h.2.symm⟩
    | some m =>
      simp only [exportNodeAsPng, Prod.mk.injEq] at h
      exact ⟨_, h.2.symm⟩

theorem publish_true_iff (http : Option Nat) :
    (postReviewCommentToFigma http).1 = true ↔
      ∃ code, http = some code ∧ respOk code := by
  cases http with
  | none => simp [postReviewCommentToFigma]
  | some code =>
    by_cases h : respOk code <;> simp [postReviewCommentToFigma, h]

theorem publish_evts (http : Option Nat) :
    Event.fetchComment ∈ (postReviewCommentToFigma http).2 ∧
    Event.closePlugin ∉ (postReviewCommentToFigma http).2 ∧
    Event.postFinished ∉ (postReviewCommentToFigma http).2 := by
  cases http with
  | none => simp [postReviewCommentToFigma]
  | some code =>
    by_cases h : respOk code <;> simp [postReviewCommentToFigma, h]

/-- C10: a run that publishes its comment successfully closes the
plugin and never posts the finished message; the finished message is
posted exactly on runs that do not close, i.e. on every failure path,
and closing happens exactly when the comment POST was made and got a
2xx status. -/
theorem c10_close_only_on_successful_publish (store : Storage) (env : Env)
    (msg : Msg) (st : Storage) (evts : List Event)
    (h : handleGetReview store env msg = .done st evts) :
    (Event.closePlugin ∈ evts ↔
      Event.fetchComment ∈ evts ∧
        (postReviewCommentToFigma env.commentHttp).1 = true) ∧
    (Event.postFinished ∈ evts ↔ Event.closePlugin ∉ evts) ∧
    ((postReviewCommentToFigma env.commentHttp).1 = true ↔
      ∃ code, env.commentHttp = some code ∧ respOk code) := by
  refine ?_
  unfold handleGetReview at h
  split at h <;> rename_i heq
  · simp at h
  · simp only [RunResult.done.injEq] at h
    obtain ⟨rfl, rfl⟩ := h
    have hev := credPhase_missing_events _ _ _ _ _ heq
    rw [hev]
    refine ⟨?_, ?_, publish_true_iff env.commentHttp⟩ <;> simp
  · have hne0 := credPhase_proceed_not_mem _ _ _ _ _ _ _ heq
    split at h <;> rename_i hsel
    · simp only [RunResult.done.injEq] at h
      obtain ⟨rfl, rfl⟩ := h
      refine ⟨?_, ?_, publish_true_iff env.commentHttp⟩ <;>
        simp [List.mem_append, hne0.1, hne0.2.1, hne0.2.2.1]
    · split at h <;> rename_i hexp
      · simp only [RunResult.done.injEq] at h
        obtain ⟨rfl, rfl⟩ := h
        obtain ⟨m, hm⟩ := exportNodeAsPng_none_evts _ _ hexp
        rw [hm]
        refine ⟨?_, ?_, publish_true_iff env.commentHttp⟩ <;>
          simp [List.mem_append, hne0.1, hne0.2.1, hne0.2.2.1]
      · have hexevts := exportNodeAsPng_some_evts _ _ _ hexp
        subst hexevts
        split at h <;> rename_i hgem
        · simp only [RunResult.done.injEq] at h
          obtain ⟨rfl, rfl⟩ := h
          have hnm := gemini_not_mem env.geminiResponses 0
          rw [hgem] at hnm
          refine ⟨?_, ?_, publish_true_iff env.commentHttp⟩ <;>
            simp [List.mem_append, hne0.1, hne0.2.1, hne0.2.2.1,
              hnm.1, hnm.2.1, hnm.2.2]
        · simp only [RunResult.done.injEq] at h
          obtain ⟨rfl, rfl⟩ := h
          have hnm := gemini_not_mem env.geminiResponses 0
          rw [hgem] at hnm
          refine ⟨?_, ?_, publish_true_iff env.commentHttp⟩ <;>
            simp [List.mem_append, hne0.1, hne0.2.1, hne0.2.2.1,
              hnm.1, hnm.2.1, hnm.2.2]
        · simp only [RunResult.done.injEq] at h
          obtain ⟨rfl, rfl⟩ := h
          have hnm := gemini_not_mem env.geminiResponses 0
          rw [hgem] at hnm
          refine ⟨?_, ?_, publish_true_iff env.commentHttp⟩ <;>
            simp [List.mem_append, hne0.1, hne0.2.1, hne0.2.2.1,
              hnm.1, hnm.2.1, hnm.2.2]
        · split at h <;> rename_i hext
          · simp only [RunResult.done.injEq] at h
            obtain ⟨rfl, rfl⟩ := h
            have hnm := gemini_not_mem env.geminiResponses 0
            rw [hgem] at hnm
            refine ⟨?_, ?_, publish_true_iff env.commentHttp⟩ <;>
              simp [List.mem_append, hne0.1, hne0.2.1, hne0.2.2.1,
                hnm.1, hnm.2.1, hnm.2.2]
          · split at h
            · split at h <;> rename_i hpub
              · simp only [RunResult.done.injEq] at h
                obtain ⟨rfl, rfl⟩ := h
                have hnm := gemini_not_mem env.geminiResponses 0
                rw [hgem] at hnm
                have hpe := publish_evts env.commentHttp
                rw [hpub] at hpe
                refine ⟨?_, ?_, publish_true_iff env.commentHttp⟩ <;>
                  simp [List.mem_append, hne0.1, hne0.2.1, hne0.2.2.1,
                    hnm.1, hnm.2.1, hnm.2.2, hpe.1, hpe.2.1, hpe.2.2, hpub]
              · simp only [RunResult.done.injEq] at h
                obtain ⟨rfl, rfl⟩ := h
                have hnm := gemini_not_mem env.geminiResponses 0
                rw [hgem] at hnm
                have hpe := publish_evts env.commentHttp
                rw [hpub] at hpe
                refine ⟨?_, ?_, publish_true_iff env.commentHttp⟩ <;>
                  simp [List.mem_append, hne0.1, hne0.2.1, hne0.2.2.1,
                    hnm.1, hnm.2.1, hnm.2.2, hpe.1, hpe.2.1, hpe.2.2, hpub]
            · simp only [RunResult.done.injEq] at h
              obtain ⟨rfl, rfl⟩ := h
              have hnm := gemini_not_mem env.geminiResponses 0
              rw [hgem] at hnm
              refine ⟨?_, ?_, publish_true_iff env.commentHttp⟩ <;>
                simp [List.mem_append, hne0.1, hne0.2.1, hne0.2.2.1,
                  hnm.1, hnm.2.1, hnm.2.2]

/-- Environment for the C10 witness: a full happy path ending in a
successful publication. -/
def happyEnv : Env :=
  { c8Env with
    geminiResponses := fun _ =>
      GeminiHttp.status 200 "OK" ⟨[⟨⟨[⟨some "review"⟩]⟩⟩]⟩ }

theorem happyEnv_gemini :
    requestGeminiAPI happyEnv.geminiResponses 0 =
      ([.fetchGemini], .success ⟨[⟨⟨[⟨some "review"⟩]⟩⟩]⟩) := by
  rw [requestGeminiAPI_status happyEnv.geminiResponses 0 200 "OK"
    ⟨[⟨⟨[⟨some "review"⟩]⟩⟩]⟩ rfl]
  norm_num [respOk]

theorem happyEnv_run :
    handleGetReview ⟨none, none⟩ happyEnv ⟨some "k", some "t", none⟩ =
      .done ⟨some "k", some "t"⟩
        ([.storageSetApiKey "k", .storageSetFigmaToken "t"] ++
          [.notify fetchingNotice] ++ [] ++ [.fetchGemini] ++
          [.notify addingNotice] ++
          [.fetchComment, .notify "レビューをコメントとして追加しました"] ++
          [.closePlugin]) := by
  unfold handleGetReview
  simp only [show credPhase ⟨none, none⟩ happyEnv ⟨some "k", some "t", none⟩ =
      .proceed "k" "t" ⟨some "k", some "t"⟩
        [.storageSetApiKey "k", .storageSetFigmaToken "t"] from rfl,
    show validateSelection happyEnv.selection =
      .ok ⟨NodeKind.frameKind, "1:2"⟩ from rfl,
    show exportNodeAsPng happyEnv.exportResult = (some [0], []) from rfl,
    happyEnv_gemini,
    show extractText ⟨[⟨⟨[⟨some "review"⟩]⟩⟩]⟩ = some "review" from rfl,
    show truthy happyEnv.fileKey = true from rfl,
    show postReviewCommentToFigma happyEnv.commentHttp =
      (true, [.fetchComment,
        .notify "レビューをコメントとして追加しました"]) from rfl]
  rfl

/-- Witness for C10 on the happy-path run: the trace closes the plugin
and contains no finished message. -/
theorem c10_witness :
    Event.closePlugin ∈
      (handleGetReview ⟨none, none⟩ happyEnv
        ⟨some "k", some "t", none⟩).events ∧
    Event.postFinished ∉
      (handleGetReview ⟨none, none⟩ happyEnv
        ⟨some "k", some "t", none⟩).events := by
  have h := c10_close_only_on_successful_publish ⟨none, none⟩ happyEnv
    ⟨some "k", some "t", none⟩ ⟨some "k", some "t"⟩ _ happyEnv_run
  rw [show (handleGetReview ⟨none, none⟩ happyEnv
      ⟨some "k", some "t", none⟩).events =
    ([.storageSetApiKey "k", .storageSetFigmaToken "t"] ++
      [.notify fetchingNotice] ++ [] ++ [.fetchGemini] ++
      [.notify addingNotice] ++
      [.fetchComment, .notify "レビューをコメントとして追加しました"] ++
      [.closePlugin]) from by rw [happyEnv_run]; rfl]
  have hclose : Event.closePlugin ∈
      ([Event.storageSetApiKey "k", Event.storageSetFigmaToken "t"] ++
        [Event.notify fetchingNotice] ++ [] ++ [Event.fetchGemini] ++
        [Event.notify addingNotice] ++
        [Event.fetchComment,
          Event.notify "レビューをコメントとして追加しました"] ++
        [Event.closePlugin]) := by simp
  exact ⟨hclose, fun hfin => by
    have := (h.2.1.mp hfin)
    exact this hclose⟩

/-! Single-flight question (claim C5). -/

/-- Effect list of one handler invocation for the start-review message
used in the single-flight analysis: the happy-path run of `happyEnv`
with both secrets supplied. -/
def happyEvents : List Event :=
  (handleGetReview ⟨none, none⟩ happyEnv ⟨some "k", some "t", none⟩).events

theorem happyEvents_eq :
    happyEvents =
      [.storageSetApiKey "k", .storageSetFigmaToken "t",
       .notify fetchingNotice, .fetchGemini, .notify addingNotice,
       .fetchComment, .notify "レビューをコメントとして追加しました",
       .closePlugin] := by
  unfold happyEvents
  rw [happyEnv_run]
  rfl

/-- Schedule delivering a second start command while the first
invocation is suspended right after its Gemini fetch. -/
def c5sched : List LoopAction :=
  [.deliver, .advance 0, .advance 0, .advance 0, .advance 0,
   .deliver, .advance 1, .advance 1, .advance 1, .advance 1]

/-- Refutation of C5 as stated: the message dispatch consults no
run-active state, so the second start command spawns a second
invocation; under `c5sched` both invocations have issued their Gemini
fetch while the first one is still unfinished (its pending effects are
nonempty), i.e. two runs are active and both have called the service. -/
theorem c5_counterexample_two_concurrent_runs :
    (0, Event.fetchGemini) ∈ (runSched happyEvents initLoop c5sched).trace ∧
    (1, Event.fetchGemini) ∈ (runSched happyEvents initLoop c5sched).trace ∧
    (runSched happyEvents initLoop c5sched).pending.head? =
      some (0, [.notify addingNotice, .fetchComment,
        .notify "レビューをコメントとして追加しました", .closePlugin]) := by
  simp only [happyEvents_eq]
  decide

/-- C5 (amended): there is no single-flight guard.  Delivering a start
command spawns a new handler invocation unconditionally - whatever
invocations are already pending - so a start received while a run is
active begins a second concurrent run rather than being ignored. -/
theorem c5_amended_no_single_flight_guard (s : LoopState)
    (instEvents : List Event) :
    (loopStep instEvents s .deliver).pending.length = s.pending.length + 1 ∧
    (loopStep instEvents s .deliver).pending.getLast? =
      some (s.nextId, instEvents) ∧
    (loopStep instEvents s .deliver).trace = s.trace := by
  refine ⟨?_, ?_, rfl⟩
  · simp [loopStep]
  · simp [loopStep]

end FigmaReviewer
